import Mathlib

/-!
Shallow embedding of the hebrew-book-librarian scan pipeline.

The definitions below are translated from the repository sources:
- `src/src/BookScanner.tsx` (`handleScanCover`, the OCR line filtering and the
  orchestration of the heartbeat / inference / placeholder logic),
- `src/unnamed/part_002` (`fetchBookData`, `fetchCoverWithRetry`, `BookData`),
- `src/unnamed/part_003` (the `performOcr` of the cloud function).

External collaborators (the OCR HTTP endpoint, the AI endpoint, the book-search
API, the FileReader/Image/canvas machinery of the browser and `JSON.parse`) are
modelled as oracle inputs: each network exchange is a value fed to the embedded
function, and `JSON.parse` is modelled by an executable JSON parser below.
JavaScript strings are modelled as Lean strings; all characters appearing in
the claims live in the Basic Multilingual Plane, where the UTF-16 `length` of
JavaScript agrees with the character count of Lean.
-/

namespace HebrewLibrarian

/-! ### JavaScript string primitives (trim, split, join, replace) -/

/-- Whitespace test used by the model of the JavaScript `String.prototype.trim`. -/
def wsB (c : Char) : Bool := c.isWhitespace

/-- Model of the JavaScript `trim`: drop whitespace from both ends. -/
def trimChars (l : List Char) : List Char :=
  ((l.dropWhile wsB).reverse.dropWhile wsB).reverse

/-- `trim` on strings. -/
def jsTrim (s : String) : String := ⟨trimChars s.data⟩

/-- Model of the JavaScript `split` at newlines: split a character list at each
newline, keeping empty segments (so `"" ↦ [""]` and a trailing newline yields a
trailing empty segment), exactly as `String.prototype.split` does. -/
def splitNl : List Char → List (List Char)
  | [] => [[]]
  | c :: cs =>
    match splitNl cs with
    | [] => [[]]
    | l :: ls => if c = '\n' then [] :: l :: ls else (c :: l) :: ls

/-- Model of the JavaScript `Array.prototype.join` with a single-space separator. -/
def joinSp : List (List Char) → List Char
  | [] => []
  | [l] => l
  | l :: l' :: ls => l ++ ' ' :: joinSp (l' :: ls)

/-- Model of the JavaScript `String.prototype.replace` with a plain string
pattern: replace only the first occurrence, scanning left to right. -/
def replFirst (pat rep : List Char) : List Char → List Char
  | [] => if pat.isEmpty then rep else []
  | c :: cs =>
    if pat.isPrefixOf (c :: cs) then rep ++ (c :: cs).drop pat.length
    else c :: replFirst pat rep cs

/-- `replace(pat, rep)` (first occurrence only) on strings, as used by
`thumbnail.replace("http:", "https:")` in `fetchCoverWithRetry`. -/
def jsReplaceFirst (s pat rep : String) : String :=
  ⟨replFirst pat.data rep.data s.data⟩

/-- Does `pat` occur as a contiguous substring of the list? -/
def hasSub (pat : List Char) : List Char → Bool
  | [] => pat.isEmpty
  | c :: cs => pat.isPrefixOf (c :: cs) || hasSub pat cs

/-- Substring test on strings. -/
def containsSub (s pat : String) : Bool := hasSub pat.data s.data

/-! ### The code-fence cleaning step of `fetchBookData`

`src/unnamed/part_002` line 82:
`resultText.replace(/\x60\x60\x60json/g, "").replace(/\x60\x60\x60/g, "").trim()`.
A global regex replace on a literal pattern scans left to right and removes
each non-overlapping occurrence; the two functions below implement exactly
that scan for the two literal patterns involved. -/

/-- Remove every occurrence of the seven-character pattern made of three
backticks followed by `json`, scanning left to right. -/
def stripJsonFence : List Char → List Char
  | c₁ :: c₂ :: c₃ :: c₄ :: c₅ :: c₆ :: c₇ :: rest =>
    if c₁ = '\x60' ∧ c₂ = '\x60' ∧ c₃ = '\x60' ∧ c₄ = 'j' ∧ c₅ = 's' ∧ c₆ = 'o' ∧ c₇ = 'n'
    then stripJsonFence rest
    else c₁ :: stripJsonFence (c₂ :: c₃ :: c₄ :: c₅ :: c₆ :: c₇ :: rest)
  | c :: cs => c :: stripJsonFence cs
  | [] => []

/-- Remove every occurrence of three consecutive backticks, scanning left to
right. -/
def stripFence : List Char → List Char
  | c₁ :: c₂ :: c₃ :: rest =>
    if c₁ = '\x60' ∧ c₂ = '\x60' ∧ c₃ = '\x60'
    then stripFence rest
    else c₁ :: stripFence (c₂ :: c₃ :: rest)
  | c :: cs => c :: stripFence cs
  | [] => []

/-- The reply-cleaning pipeline of `fetchBookData`: strip the json fences,
strip bare fences, trim. -/
def cleanChars (l : List Char) : List Char := trimChars (stripFence (stripJsonFence l))

/-- Reply cleaning on strings (`cleanJson` in the source). -/
def cleanReply (s : String) : String := ⟨cleanChars s.data⟩

/-! ### A model of `JSON.parse`

`JSON.parse` is a host builtin, external to the repository; it is modelled by
the executable recursive-descent parser below (objects, arrays, strings with
the standard escapes, numbers, the three keywords), with a fuel argument
bounding recursion depth by the input length. -/

inductive Json where
  | null
  | bool (b : Bool)
  | num (lexeme : String)
  | str (s : String)
  | arr (elems : List Json)
  | obj (members : List (String × Json))

/-- JSON insignificant whitespace. -/
def jsonWs (c : Char) : Bool := c = ' ' || c = '\t' || c = '\n' || c = '\r'

def skipWs (l : List Char) : List Char := l.dropWhile jsonWs

def hexVal (c : Char) : Option Nat :=
  if '0' ≤ c ∧ c ≤ '9' then some (c.toNat - '0'.toNat)
  else if 'a' ≤ c ∧ c ≤ 'f' then some (c.toNat - 'a'.toNat + 10)
  else if 'A' ≤ c ∧ c ≤ 'F' then some (c.toNat - 'A'.toNat + 10)
  else none

/-- Body of a JSON string literal, after the opening quote; returns the
decoded characters and the remainder after the closing quote. -/
def parseStringBody : List Char → Option (List Char × List Char)
  | [] => none
  | '"' :: rest => some ([], rest)
  | '\\' :: 'u' :: a :: b :: c :: d :: rest =>
    match hexVal a, hexVal b, hexVal c, hexVal d with
    | some va, some vb, some vc, some vd =>
      (parseStringBody rest).map
        (fun p => (Char.ofNat (((va * 16 + vb) * 16 + vc) * 16 + vd) :: p.1, p.2))
    | _, _, _, _ => none
  | '\\' :: e :: rest =>
    match
      (match e with
        | '"' => some '"'
        | '\\' => some '\\'
        | '/' => some '/'
        | 'b' => some '\x08'
        | 'f' => some '\x0c'
        | 'n' => some '\n'
        | 'r' => some '\r'
        | 't' => some '\t'
        | _ => none) with
    | some ch => (parseStringBody rest).map (fun p => (ch :: p.1, p.2))
    | none => none
  | c :: rest => (parseStringBody rest).map (fun p => (c :: p.1, p.2))

/-- A JSON number lexeme: optional minus, digits, optional fraction, optional
exponent. Returns the lexeme and the remainder. -/
def parseNumber (l : List Char) : Option (List Char × List Char) :=
  let (neg, l1) := match l with
    | '-' :: r => (['-'], r)
    | _ => (([] : List Char), l)
  let ip := l1.takeWhile Char.isDigit
  let r2 := l1.dropWhile Char.isDigit
  if ip.isEmpty then none
  else
    let (fp, r3) := match r2 with
      | '.' :: r =>
        let ds := r.takeWhile Char.isDigit
        if ds.isEmpty then (none, r2) else (some ('.' :: ds), r.dropWhile Char.isDigit)
      | _ => (none, r2)
    match fp, r3 with
    | none, '.' :: _ => none
    | _, _ =>
      let fpl := fp.getD []
      match r3 with
      | 'e' :: r | 'E' :: r =>
        let (sgn, r4) := match r with
          | '+' :: r' => (['+'], r')
          | '-' :: r' => (['-'], r')
          | _ => (([] : List Char), r)
        let es := r4.takeWhile Char.isDigit
        if es.isEmpty then none
        else some (neg ++ ip ++ fpl ++ 'e' :: sgn ++ es, r4.dropWhile Char.isDigit)
      | _ => some (neg ++ ip ++ fpl, r3)

mutual

/-- Parse one JSON value (fuel-bounded). -/
def parseVal : Nat → List Char → Option (Json × List Char)
  | 0, _ => none
  | n + 1, l =>
    match skipWs l with
    | [] => none
    | '\x7b' :: rest =>
      match skipWs rest with
      | '\x7d' :: r2 => some (.obj [], r2)
      | r1 => (parseMembers n r1).map (fun p => (Json.obj p.1, p.2))
    | '[' :: rest =>
      match skipWs rest with
      | ']' :: r2 => some (.arr [], r2)
      | r1 => (parseElems n r1).map (fun p => (Json.arr p.1, p.2))
    | '"' :: rest => (parseStringBody rest).map (fun p => (Json.str ⟨p.1⟩, p.2))
    | 't' :: 'r' :: 'u' :: 'e' :: r => some (.bool true, r)
    | 'f' :: 'a' :: 'l' :: 's' :: 'e' :: r => some (.bool false, r)
    | 'n' :: 'u' :: 'l' :: 'l' :: r => some (.null, r)
    | l' => (parseNumber l').map (fun p => (Json.num ⟨p.1⟩, p.2))

/-- Parse the members of an object, after the opening brace (nonempty case). -/
def parseMembers : Nat → List Char → Option (List (String × Json) × List Char)
  | 0, _ => none
  | n + 1, l =>
    match skipWs l with
    | '"' :: rest =>
      match parseStringBody rest with
      | none => none
      | some (k, r1) =>
        match skipWs r1 with
        | ':' :: r2 =>
          match parseVal n r2 with
          | none => none
          | some (v, r3) =>
            match skipWs r3 with
            | ',' :: r4 => (parseMembers n r4).map (fun p => ((⟨k⟩, v) :: p.1, p.2))
            | '\x7d' :: r4 => some ([(⟨k⟩, v)], r4)
            | _ => none
        | _ => none
    | _ => none

/-- Parse the elements of an array, after the opening bracket (nonempty case). -/
def parseElems : Nat → List Char → Option (List Json × List Char)
  | 0, _ => none
  | n + 1, l =>
    match parseVal n l with
    | none => none
    | some (v, r) =>
      match skipWs r with
      | ',' :: r2 => (parseElems n r2).map (fun p => (v :: p.1, p.2))
      | ']' :: r2 => some ([v], r2)
      | _ => none

end

/-- Model of `JSON.parse`: parse one value and require only whitespace after
it; any failure models the `SyntaxError` that `JSON.parse` throws. -/
def jsonParse (s : String) : Option Json :=
  match parseVal (s.data.length + 1) s.data with
  | some (j, rest) => if (skipWs rest).isEmpty then some j else none
  | none => none

/-! ### `BookData` and the inference client (`src/unnamed/part_002`) -/

/-- The `BookData` interface of `fetchBookData.ts`; every field optional. -/
structure BookData where
  title : Option String := none
  authors : Option (List String) := none
  publisher : Option String := none
  year : Option String := none
  description : Option String := none
  isbn13 : Option String := none
  language : Option String := none
  coverUri : Option String := none
deriving DecidableEq

/-- Field lookup on a parsed JSON value. JavaScript object literals keep the
last of duplicate keys, hence the reverse before the search. -/
def jGet (j : Json) (key : String) : Option Json :=
  match j with
  | .obj ms => (ms.reverse.find? (fun m => m.1 == key)).map (fun m => m.2)
  | _ => none

def asStr : Json → Option String
  | .str s => some s
  | _ => none

def asStrList : Json → Option (List String)
  | .arr es => es.mapM asStr
  | _ => none

/-- The record built by spreading the parsed reply into a `BookData`
(string-typed fields per the TypeScript interface). -/
def toBookData (j : Json) : BookData :=
  { title := (jGet j "title").bind asStr
    authors := (jGet j "authors").bind asStrList
    publisher := (jGet j "publisher").bind asStr
    year := (jGet j "year").bind asStr
    description := (jGet j "description").bind asStr
    isbn13 := (jGet j "isbn13").bind asStr
    language := (jGet j "language").bind asStr
    coverUri := (jGet j "coverUri").bind asStr }

/-! ### The cover lookup client (`fetchCoverWithRetry`) -/

/-- One exchange with the book-search API: either `fetch`/`res.json()` throws,
or a response arrives with an HTTP status and the optional
`items[0].volumeInfo.imageLinks.thumbnail` of its payload. -/
inductive CoverResp where
  | throwErr
  | resp (status : Nat) (thumbnail : Option String)
deriving DecidableEq

/-- Observable outcome of a `fetchCoverWithRetry` run: the returned value, how
many requests were issued, and the list of backoff waits (milliseconds)
performed via `setTimeout`. -/
structure CoverFetchTrace where
  result : Option String
  requests : Nat
  waits : List Nat
deriving DecidableEq

/-- Model of `thumbnail ? thumbnail.replace("http:", "https:") : undefined`
(an empty string is falsy in JavaScript). -/
def thumbResult (thumbnail : Option String) : Option String :=
  match thumbnail with
  | some u => if u = "" then none else some (jsReplaceFirst u "http:" "https:")
  | none => none

/-- The retry loop of `fetchCoverWithRetry`: iteration `i` consumes the `i`-th
network outcome; on a thrown error `continue`, on HTTP 429 wait 1000 ms and
`continue`, otherwise return the (rewritten) thumbnail. The second `Nat` is
the remaining iteration count of `for (let i = 0; i < retries; i++)`. -/
def coverRun (covers : Nat → CoverResp) : Nat → Nat → CoverFetchTrace
  | _, 0 => ⟨none, 0, []⟩
  | i, n + 1 =>
    match covers i with
    | .throwErr =>
      let t := coverRun covers (i + 1) n
      ⟨t.result, t.requests + 1, t.waits⟩
    | .resp status thumb =>
      if status = 429 then
        let t := coverRun covers (i + 1) n
        ⟨t.result, t.requests + 1, 1000 :: t.waits⟩
      else
        ⟨thumbResult thumb, 1, []⟩

/-- Model of `fetchCoverWithRetry(title, retries = 2)`; the `title` only shapes the
query URL, never the control flow. -/
def fetchCoverWithRetry (covers : Nat → CoverResp) (title : String)
    (retries : Nat := 2) : CoverFetchTrace :=
  coverRun covers 0 retries

/-! ### `fetchBookData` -/

/-- Observable outcome of one `fetchBookData` call: the returned record (or
`undefined`) and how many cover requests were issued. -/
structure InferRun where
  result : Option BookData
  coverRequests : Nat
deriving DecidableEq

/-- Model of `fetchBookData`, with the reply text of the AI endpoint (`resultText`, absent
when the candidate path is missing) and the book-search exchanges as oracles.
An absent or empty reply returns `undefined`; a reply whose cleaned form fails
`JSON.parse` lands in the `catch` and returns `undefined`; otherwise the
parsed record is returned with `coverUri` from `fetchCoverWithRetry`, queried
with `bookData.title || ""`. -/
def fetchBookDataRun (reply : Option String) (covers : Nat → CoverResp) : InferRun :=
  match reply with
  | none => ⟨none, 0⟩
  | some resultText =>
    if resultText = "" then ⟨none, 0⟩
    else
      match jsonParse (cleanReply resultText) with
      | none => ⟨none, 0⟩
      | some j =>
        let bd := toBookData j
        let trace := fetchCoverWithRetry covers (bd.title.getD "") 2
        ⟨some { bd with coverUri := trace.result }, trace.requests⟩

/-- The value `fetchBookData` resolves to. -/
def fetchBookData (reply : Option String) (covers : Nat → CoverResp) : Option BookData :=
  (fetchBookDataRun reply covers).result

/-! ### The orchestrator (`handleScanCover` in `src/src/BookScanner.tsx`) -/

/-- The JSON body returned by the OCR cloud function:
`{ success: bool, text?: string }` (the `message` field is unused by the
client). -/
structure OcrReplyData where
  success : Bool
  text : Option String
deriving DecidableEq

/-- Outcome of the encode step (the `FileReader`/`Image`/canvas promise).
`readError` models `reader.onerror` firing (the promise rejects with
`Read failed`); `decodeFailure` models an image the browser cannot decode:
`img.onload` never fires and, since no `img.onerror` handler is attached,
the promise never settles; `ok` carries the base64 payload. -/
inductive EncodeOutcome where
  | readError
  | decodeFailure
  | ok (base64 : String)
deriving DecidableEq

/-- JavaScript truthiness of `data.text`: present and non-empty. -/
def jsTruthy : Option String → Bool
  | none => false
  | some t => t != ""

/-- Model of `data.text.split, map trim, filter length greater than 1`,
as the two pipeline stages: the trimmed lines, then the length filter. -/
def trimmedLines (t : String) : List String :=
  (splitNl t.data).map (fun l => (⟨trimChars l⟩ : String))

/-- The OCR lines kept by the Text Extraction stage. -/
def extractLines (t : String) : List String :=
  (trimmedLines t).filter (fun s => 1 < s.length)

/-- The placeholder record shown when `fetchBookData` returns `undefined`. -/
def noBookPlaceholder : BookData :=
  { title := some "Identification Failed"
    description := some "AI is online but this book isn\x27t in its index." }

/-- The state `handleScanCover` leaves behind, together with how often each
later stage was invoked. -/
structure ScanResult where
  ocrLines : List String
  bookResult : Option BookData
  aiStatus : String
  error : Option String
  isLoading : Bool
  testAICalls : Nat
  fetchBookDataCalls : Nat
  coverRequests : Nat
deriving DecidableEq

/-- Model of `handleScanCover`, with every external exchange an oracle: the encode
outcome, the OCR endpoint exchange (`Except.error msg` models `fetch` or
`response.json()` throwing, caught as `Error: msg`), the heartbeat reply of
`testAI` (which never throws), and the inference/cover oracles passed through
to `fetchBookData`. The value `none` models a run that never completes: no
terminal state is reached, `isLoading` is never reset and no error is set. -/
def handleScanCover (enc : EncodeOutcome) (ocr : Except String OcrReplyData)
    (heartbeat : String) (inferReply : Option String) (covers : Nat → CoverResp) :
    Option ScanResult :=
  match enc with
  | .decodeFailure => none
  | .readError => some ⟨[], none, "", some "Error: Read failed", false, 0, 0, 0⟩
  | .ok _b64 =>
    match ocr with
    | .error msg => some ⟨[], none, "", some ("Error: " ++ msg), false, 0, 0, 0⟩
    | .ok data =>
      if data.success && jsTruthy data.text then
        let lines := extractLines (data.text.getD "")
        let run := fetchBookDataRun inferReply covers
        some ⟨lines, some (run.result.getD noBookPlaceholder),
              "AI Status: " ++ heartbeat, none, false, 1, 1, run.coverRequests⟩
      else
        some ⟨[], none, "", some "No text detected.", false, 0, 0, 0⟩

/-! ### The OCR cloud function (`performOcr` in `src/unnamed/part_003`) -/

/-- Does a raw line survive the filter of the cloud function
(`line.trim().length > 1`)? -/
def qualLine (l : List Char) : Bool := 1 < (trimChars l).length

/-- Model of `text.split, filter trimmed length greater than 1, slice(0, 3), join`
followed by the final `.trim()`, on the list of raw lines. -/
def performOcrLines (ls : List (List Char)) : List Char :=
  trimChars (joinSp ((ls.filter qualLine).take 3))

/-- Model of `performOcr`, with the `fullTextAnnotation.text` of the Vision reply as oracle
(`none` models a missing annotation; the empty string is falsy, both return
`""`). -/
def performOcr : Option String → String
  | none => ""
  | some t => if t = "" then "" else ⟨performOcrLines (splitNl t.data)⟩

/-! ### Claim-side predicates -/

/-- Absence of backtick characters in a string. -/
def noBacktick (s : String) : Bool := s.data.all (fun c => c != '\x60')

/-- Is a book-search exchange one the loop retries past: a thrown transport
error or an HTTP 429 response? -/
def retryable : CoverResp → Bool
  | .throwErr => true
  | .resp status _ => status == 429

/-! ### Helper lemmas -/

theorem sjf_cons (c : Char) (l : List Char) (h : c ≠ '\x60') :
    stripJsonFence (c :: l) = c :: stripJsonFence l := by
  match l with
  | [] => rfl
  | [a] => rfl
  | [a, b] => rfl
  | [a, b, d] => rfl
  | [a, b, d, e] => rfl
  | [a, b, d, e, f] => rfl
  | a :: b :: d :: e :: f :: g :: rest =>
    show stripJsonFence (c :: a :: b :: d :: e :: f :: g :: rest) = _
    rw [stripJsonFence]
    simp [h]

theorem sf_cons (c : Char) (l : List Char) (h : c ≠ '\x60') :
    stripFence (c :: l) = c :: stripFence l := by
  match l with
  | [] => rfl
  | [a] => rfl
  | a :: b :: rest =>
    show stripFence (c :: a :: b :: rest) = _
    rw [stripFence]
    simp [h]

theorem sjf_pass (l t : List Char) (h : ∀ c ∈ l, c ≠ '\x60') :
    stripJsonFence (l ++ t) = l ++ stripJsonFence t := by
  induction l with
  | nil => rfl
  | cons c l ih =>
    rw [List.cons_append, sjf_cons c _ (h c (List.mem_cons_self c l)),
      ih (fun c' hc' => h c' (List.mem_cons_of_mem c hc'))]
    rfl

theorem sf_pass (l t : List Char) (h : ∀ c ∈ l, c ≠ '\x60') :
    stripFence (l ++ t) = l ++ stripFence t := by
  induction l with
  | nil => rfl
  | cons c l ih =>
    rw [List.cons_append, sf_cons c _ (h c (List.mem_cons_self c l)),
      ih (fun c' hc' => h c' (List.mem_cons_of_mem c hc'))]
    rfl

theorem dropWhile_app_left (p : Char → Bool) (l m : List Char)
    (h : l.dropWhile p = []) : (l ++ m).dropWhile p = m.dropWhile p := by
  induction l with
  | nil => rfl
  | cons c l ih =>
    rw [List.dropWhile_cons] at h
    by_cases hp : p c = true
    · rw [List.cons_append, List.dropWhile_cons, if_pos hp]
      exact ih (by rwa [if_pos hp] at h)
    · rw [if_neg hp] at h
      exact absurd h (List.cons_ne_nil c l)

theorem dropWhile_app_right (p : Char → Bool) (l m : List Char)
    (h : l.dropWhile p ≠ []) : (l ++ m).dropWhile p = l.dropWhile p ++ m := by
  induction l with
  | nil => exact absurd rfl h
  | cons c l ih =>
    rw [List.dropWhile_cons] at h
    by_cases hp : p c = true
    · rw [List.cons_append, List.dropWhile_cons, if_pos hp, List.dropWhile_cons, if_pos hp]
      exact ih (by rwa [if_pos hp] at h)
    · rw [List.cons_append, List.dropWhile_cons, if_neg hp, List.dropWhile_cons, if_neg hp,
        List.cons_append]

theorem trim_guard (l : List Char) :
    trimChars ('\n' :: (l ++ ['\n'])) = trimChars l := by
  unfold trimChars
  have h1 : List.dropWhile wsB ('\n' :: (l ++ ['\n'])) = List.dropWhile wsB (l ++ ['\n']) := by
    rw [List.dropWhile_cons, if_pos (by decide)]
  rw [h1]
  by_cases hd : List.dropWhile wsB l = []
  · rw [dropWhile_app_left _ _ _ hd, hd]
    decide
  · rw [dropWhile_app_right _ _ _ hd, List.reverse_append]
    show ((['\n'] ++ (List.dropWhile wsB l).reverse).dropWhile wsB).reverse = _
    rw [List.cons_append, List.nil_append, List.dropWhile_cons, if_pos (by decide)]

theorem cleanChars_pass (l : List Char) (h : ∀ c ∈ l, c ≠ '\x60') :
    cleanChars ('\x60' :: '\x60' :: '\x60' :: 'j' :: 's' :: 'o' :: 'n' :: '\n' ::
      (l ++ ['\n', '\x60', '\x60', '\x60'])) = trimChars l := by
  have hmem : ∀ c ∈ '\n' :: (l ++ ['\n']), c ≠ '\x60' := by
    intro c hc
    rcases List.mem_cons.1 hc with h1 | h1
    · subst h1; decide
    · rcases List.mem_append.1 h1 with h2 | h2
      · exact h c h2
      · rcases List.mem_singleton.1 h2 with rfl; decide
  have hshape : ('\n' :: (l ++ ['\n', '\x60', '\x60', '\x60']))
      = ('\n' :: (l ++ ['\n'])) ++ ['\x60', '\x60', '\x60'] := by
    simp
  have hstep1 : stripJsonFence ('\x60' :: '\x60' :: '\x60' :: 'j' :: 's' :: 'o' :: 'n' :: '\n' ::
      (l ++ ['\n', '\x60', '\x60', '\x60']))
      = stripJsonFence ('\n' :: (l ++ ['\n', '\x60', '\x60', '\x60'])) := by
    rw [stripJsonFence]
    simp
  unfold cleanChars
  rw [hstep1, hshape, sjf_pass _ _ hmem]
  have h3 : stripJsonFence ['\x60', '\x60', '\x60'] = ['\x60', '\x60', '\x60'] := by decide
  rw [h3, sf_pass _ _ hmem]
  have h4 : stripFence ['\x60', '\x60', '\x60'] = [] := by decide
  rw [h4, List.append_nil, trim_guard]

theorem cleanChars_id (l : List Char) (h : ∀ c ∈ l, c ≠ '\x60') :
    cleanChars l = trimChars l := by
  have h1 : stripJsonFence l = l := by
    have := sjf_pass l [] h
    rwa [List.append_nil, show stripJsonFence [] = [] from rfl, List.append_nil] at this
  have h2 : stripFence l = l := by
    have := sf_pass l [] h
    rwa [List.append_nil, show stripFence [] = [] from rfl, List.append_nil] at this
  unfold cleanChars
  rw [h1, h2]

theorem replFirst_of_no_sub (pat rep : List Char) :
    ∀ l, hasSub pat l = false → replFirst pat rep l = l
  | [], h => by
    simp only [hasSub] at h
    simp [replFirst, h]
  | c :: cs, h => by
    simp only [hasSub, Bool.or_eq_false_iff] at h
    simp [replFirst, h.1, replFirst_of_no_sub pat rep cs h.2]

theorem jsReplaceFirst_id (u pat rep : String) (h : containsSub u pat = false) :
    jsReplaceFirst u pat rep = u := by
  unfold containsSub at h
  unfold jsReplaceFirst
  rw [replFirst_of_no_sub _ _ _ h]

theorem countFilterPos (p : String → Bool) (a : String) (hp : p a = true) :
    ∀ l : List String, (l.filter p).count a = l.count a
  | [] => rfl
  | c :: l => by
    by_cases hc : p c = true
    · rw [List.filter_cons_of_pos hc, List.count_cons, List.count_cons,
        countFilterPos p a hp l]
    · rw [List.filter_cons_of_neg hc, List.count_cons, countFilterPos p a hp l]
      have hca : (c == a) = false := by
        rcases Bool.eq_false_or_eq_true (c == a) with h | h
        · exact absurd ((eq_of_beq h) ▸ hp) hc
        · exact h
      rw [hca]
      simp

/-! ### Claim theorems -/

/-- C1 counterexample: a successful OCR reply whose text is the single Hebrew
letter tav produces an empty filtered remainder, yet `handleScanCover` records
no error and proceeds (one `testAI` call and one `fetchBookData` call happen),
so the scan does not report the no-text error when the remainder is empty. -/
theorem C1_empty_remainder_not_errored :
    extractLines "ת" = []
    ∧ handleScanCover (.ok "aW1n") (.ok ⟨true, some "ת"⟩) "OK" none
        (fun _ => CoverResp.resp 200 none)
      = some ⟨[], some noBookPlaceholder, "AI Status: OK", none, false, 1, 1, 0⟩
    ∧ (⟨[], some noBookPlaceholder, "AI Status: OK", none, false, 1, 1, 0⟩ : ScanResult).error
      = none := by decide

/-- C1 (amended): after a completed OCR exchange, the scan reports the no-text
error exactly when the reply is unsuccessful or its text field is absent or
empty; a successful reply with non-empty text proceeds even when the filtered
remainder is empty. -/
theorem C1_no_text_error_iff_reply_untruthy (b64 : String) (data : OcrReplyData)
    (hb : String) (reply : Option String) (covers : Nat → CoverResp) (r : ScanResult)
    (h : handleScanCover (.ok b64) (.ok data) hb reply covers = some r) :
    r.error = some "No text detected." ↔ (data.success && jsTruthy data.text) = false := by
  by_cases hc : (data.success && jsTruthy data.text) = true
  · simp only [handleScanCover, hc, if_true] at h
    injection h with h
    subst h
    simp [hc]
  · rw [Bool.not_eq_true] at hc
    simp only [handleScanCover, hc, Bool.false_eq_true, if_false] at h
    injection h with h
    subst h
    simp [hc]

/-- C1 witness: instantiation of the amended theorem at a successful reply
carrying an empty text field. -/
theorem C1_no_text_error_iff_reply_untruthy_witness :
    ((⟨[], none, "", some "No text detected.", false, 0, 0, 0⟩ : ScanResult).error
        = some "No text detected.")
      ↔ (((⟨true, some ""⟩ : OcrReplyData).success
            && jsTruthy (⟨true, some ""⟩ : OcrReplyData).text) = false) :=
  C1_no_text_error_iff_reply_untruthy "aW1n" ⟨true, some ""⟩ "OK" none
    (fun _ => CoverResp.resp 200 none)
    ⟨[], none, "", some "No text detected.", false, 0, 0, 0⟩ (by decide)

/-- C2 counterexample: an inference reply of an empty JSON object yields a
record with no usable title, yet the displayed record is that empty record,
not the placeholder, so the claim that the placeholder is shown whenever the
record lacks a usable title fails (the error does stay unset). -/
theorem C2_titleless_record_displayed_as_is :
    handleScanCover (.ok "aW1n") (.ok ⟨true, some "ספר"⟩) "OK" (some "\x7b\x7d")
        (fun _ => CoverResp.resp 200 none)
      = some ⟨["ספר"], some ({} : BookData), "AI Status: OK", none, false, 1, 1, 1⟩
    ∧ ({} : BookData).title = none
    ∧ ({} : BookData) ≠ noBookPlaceholder := by decide

/-- C2 (amended): whenever the pipeline reaches the inference stage it reaches
Done with the error unset, and the displayed record is the returned record when
inference yields one (even a record with no usable title), and the placeholder
exactly when inference yields no record at all. -/
theorem C2_done_reports_success_with_fallback (b64 : String) (data : OcrReplyData)
    (hb : String) (reply : Option String) (covers : Nat → CoverResp) (r : ScanResult)
    (h : handleScanCover (.ok b64) (.ok data) hb reply covers = some r)
    (hc : (data.success && jsTruthy data.text) = true) :
    r.error = none
    ∧ r.bookResult = some ((fetchBookDataRun reply covers).result.getD noBookPlaceholder) := by
  simp only [handleScanCover, hc, if_true] at h
  injection h with h
  subst h
  exact ⟨rfl, rfl⟩

/-- C2 witness: instantiation of the amended theorem at an empty-object reply. -/
theorem C2_done_reports_success_with_fallback_witness :
    (⟨["ספר"], some ({} : BookData), "AI Status: OK", none, false, 1, 1, 1⟩ : ScanResult).error
      = none
    ∧ (⟨["ספר"], some ({} : BookData), "AI Status: OK", none, false, 1, 1, 1⟩ : ScanResult).bookResult
      = some ((fetchBookDataRun (some "\x7b\x7d")
          (fun _ => CoverResp.resp 200 none)).result.getD noBookPlaceholder) :=
  C2_done_reports_success_with_fallback "aW1n" ⟨true, some "ספר"⟩ "OK" (some "\x7b\x7d")
    (fun _ => CoverResp.resp 200 none)
    ⟨["ספר"], some ({} : BookData), "AI Status: OK", none, false, 1, 1, 1⟩
    (by decide) (by decide)

/-- C3: in every completed scan that ends with an error recorded, no later
stage was attempted: `testAI` and `fetchBookData` were never invoked and no
cover request was issued. -/
theorem C3_error_implies_no_later_stage (enc : EncodeOutcome)
    (ocr : Except String OcrReplyData) (hb : String) (reply : Option String)
    (covers : Nat → CoverResp) (r : ScanResult)
    (h : handleScanCover enc ocr hb reply covers = some r)
    (herr : r.error.isSome = true) :
    r.testAICalls = 0 ∧ r.fetchBookDataCalls = 0 ∧ r.coverRequests = 0 := by
  cases enc with
  | decodeFailure => simp [handleScanCover] at h
  | readError =>
    simp only [handleScanCover] at h
    injection h with h
    subst h
    exact ⟨rfl, rfl, rfl⟩
  | ok b64 =>
    cases ocr with
    | error msg =>
      simp only [handleScanCover] at h
      injection h with h
      subst h
      exact ⟨rfl, rfl, rfl⟩
    | ok data =>
      by_cases hc : (data.success && jsTruthy data.text) = true
      · simp only [handleScanCover, hc, if_true] at h
        injection h with h
        subst h
        simp at herr
      · rw [Bool.not_eq_true] at hc
        simp only [handleScanCover, hc, Bool.false_eq_true, if_false] at h
        injection h with h
        subst h
        exact ⟨rfl, rfl, rfl⟩

/-- C3 witness: instantiation at a failed read, where the error is set and all
later-stage call counts are zero. -/
theorem C3_error_implies_no_later_stage_witness :
    (⟨[], none, "", some "Error: Read failed", false, 0, 0, 0⟩ : ScanResult).testAICalls = 0
    ∧ (⟨[], none, "", some "Error: Read failed", false, 0, 0, 0⟩ : ScanResult).fetchBookDataCalls = 0
    ∧ (⟨[], none, "", some "Error: Read failed", false, 0, 0, 0⟩ : ScanResult).coverRequests = 0 :=
  C3_error_implies_no_later_stage .readError (.ok ⟨true, some "x"⟩) "OK" none
    (fun _ => CoverResp.resp 200 none)
    ⟨[], none, "", some "Error: Read failed", false, 0, 0, 0⟩ (by decide) (by decide)

/-- C4: the extraction output on the Hebrew example is as specified, and for
every input text the output is a sublist of the trimmed lines (preserving
relative order), contains only lines of length greater than one, and keeps
every such line with its multiplicity. -/
theorem C4_extraction_filters_short_lines :
    extractLines "עמיחי\n\nת\nשירי אהבה" = ["עמיחי", "שירי אהבה"]
    ∧ ∀ t : String,
        (extractLines t).Sublist (trimmedLines t)
        ∧ (∀ s ∈ extractLines t, 1 < s.length)
        ∧ ∀ s : String, 1 < s.length →
            (extractLines t).count s = (trimmedLines t).count s := by
  refine ⟨by decide, fun t => ⟨List.filter_sublist _, ?_, ?_⟩⟩
  · intro s hs
    exact of_decide_eq_true (List.mem_filter.1 hs).2
  · intro s hlen
    exact countFilterPos _ _ (decide_eq_true hlen) _

/-- C4 witness: instantiation of the membership and multiplicity parts at a
concrete input. -/
theorem C4_extraction_filters_short_lines_witness :
    (extractLines "ab\nc").count "ab" = (trimmedLines "ab\nc").count "ab"
    ∧ 1 < ("ab" : String).length :=
  ⟨(C4_extraction_filters_short_lines.2 "ab\nc").2.2 "ab" (by decide),
   (C4_extraction_filters_short_lines.2 "ab\nc").2.1 "ab" (by decide)⟩

/-- C5: when each of the two attempted cover requests is rate-limited (HTTP
429) or throws, `fetchCoverWithRetry` with its default bound performs exactly
two requests, every backoff wait is the fixed 1000 ms, and the run returns no
cover rather than throwing. -/
theorem C5_rate_limit_exhausts_to_no_cover (covers : Nat → CoverResp) (title : String)
    (h : ∀ i, i < 2 → retryable (covers i) = true) :
    (fetchCoverWithRetry covers title 2).result = none
    ∧ (fetchCoverWithRetry covers title 2).requests = 2
    ∧ ∀ w ∈ (fetchCoverWithRetry covers title 2).waits, w = 1000 := by
  have h0 := h 0 (by omega)
  have h1 := h 1 (by omega)
  unfold fetchCoverWithRetry
  cases hc0 : covers 0 with
  | throwErr =>
    cases hc1 : covers 1 with
    | throwErr => simp [coverRun, hc0, hc1]
    | resp s1 th1 =>
      rw [hc1] at h1
      have hs1 : s1 = 429 := by simpa [retryable] using h1
      subst hs1
      simp [coverRun, hc0, hc1]
  | resp s0 th0 =>
    rw [hc0] at h0
    have hs0 : s0 = 429 := by simpa [retryable] using h0
    subst hs0
    cases hc1 : covers 1 with
    | throwErr => simp [coverRun, hc0, hc1]
    | resp s1 th1 =>
      rw [hc1] at h1
      have hs1 : s1 = 429 := by simpa [retryable] using h1
      subst hs1
      simp [coverRun, hc0, hc1]

/-- C5 witness: three consecutive 429 responses are available; the run issues
two requests, waits 1000 ms each time, and returns no cover. -/
theorem C5_rate_limit_exhausts_to_no_cover_witness :
    (fetchCoverWithRetry (fun _ => CoverResp.resp 429 none) "שירי אהבה" 2).result = none
    ∧ (fetchCoverWithRetry (fun _ => CoverResp.resp 429 none) "שירי אהבה" 2).requests = 2
    ∧ ∀ w ∈ (fetchCoverWithRetry (fun _ => CoverResp.resp 429 none) "שירי אהבה" 2).waits,
        w = 1000 :=
  C5_rate_limit_exhausts_to_no_cover (fun _ => CoverResp.resp 429 none) "שירי אהבה"
    (by decide)

/-- C6: for every reply text without backticks, wrapping it in a json code
fence leaves the cleaned reply unchanged, hence the whole inference run
(parsing, record construction and cover lookup) produces exactly the same
result as the unwrapped reply. -/
theorem C6_fenced_reply_parses_identically (s : String) (h : noBacktick s = true) :
    cleanReply ("\x60\x60\x60json\n" ++ s ++ "\n\x60\x60\x60") = cleanReply s
    ∧ ∀ covers : Nat → CoverResp,
        fetchBookDataRun (some ("\x60\x60\x60json\n" ++ s ++ "\n\x60\x60\x60")) covers
          = fetchBookDataRun (some s) covers := by
  have hchars : ∀ c ∈ s.data, c ≠ '\x60' := by
    intro c hc
    have := (List.all_eq_true.1 h) c hc
    simpa using this
  have hdata : ("\x60\x60\x60json\n" ++ s ++ "\n\x60\x60\x60").data
      = '\x60' :: '\x60' :: '\x60' :: 'j' :: 's' :: 'o' :: 'n' :: '\n' ::
        (s.data ++ ['\n', '\x60', '\x60', '\x60']) := by
    rw [String.data_append, String.data_append]
    simp
  have hclean : cleanReply ("\x60\x60\x60json\n" ++ s ++ "\n\x60\x60\x60") = cleanReply s := by
    unfold cleanReply
    rw [hdata, cleanChars_pass s.data hchars, cleanChars_id s.data hchars]
  refine ⟨hclean, fun covers => ?_⟩
  by_cases hs : s = ""
  · subst hs
    simp only [fetchBookDataRun]
    rw [Option.isNone_iff_eq_none.1
      (show (jsonParse (cleanReply ("\x60\x60\x60json\n" ++ "" ++ "\n\x60\x60\x60"))).isNone = true
        by decide)]
    simp
  · have hw : ("\x60\x60\x60json\n" ++ s ++ "\n\x60\x60\x60") ≠ "" := by
      intro heq
      have hd := congrArg String.data heq
      rw [hdata] at hd
      exact absurd hd (by simp)
    simp only [fetchBookDataRun, if_neg hw, if_neg hs, hclean]

/-- C6 witness: instantiation at a concrete JSON object reply. -/
theorem C6_fenced_reply_parses_identically_witness :
    noBacktick "\x7b\"title\":\"X\"\x7d" = true
    ∧ fetchBookDataRun (some ("\x60\x60\x60json\n" ++ "\x7b\"title\":\"X\"\x7d" ++ "\n\x60\x60\x60"))
        (fun _ => CoverResp.resp 200 none)
      = fetchBookDataRun (some "\x7b\"title\":\"X\"\x7d") (fun _ => CoverResp.resp 200 none) :=
  ⟨by decide,
   (C6_fenced_reply_parses_identically "\x7b\"title\":\"X\"\x7d" (by decide)).2
     (fun _ => CoverResp.resp 200 none)⟩

/-- C7: an absent or empty inference reply yields no record and zero cover
requests; a reply whose cleaned form fails to parse yields no record; and any
returned record is exactly the fully parsed record (with the looked-up cover),
never a partial one. -/
theorem C7_invalid_reply_yields_no_record (covers : Nat → CoverResp) :
    fetchBookDataRun none covers = ⟨none, 0⟩
    ∧ fetchBookDataRun (some "") covers = ⟨none, 0⟩
    ∧ (∀ s : String, (jsonParse (cleanReply s)).isNone = true →
        fetchBookData (some s) covers = none)
    ∧ ∀ s : String, ∀ r : BookData, fetchBookData (some s) covers = some r →
        ∃ j, jsonParse (cleanReply s) = some j
          ∧ r = { toBookData j with
                  coverUri := (fetchCoverWithRetry covers ((toBookData j).title.getD "") 2).result } := by
  refine ⟨rfl, by simp [fetchBookDataRun], ?_, ?_⟩
  · intro s hp
    rw [Option.isNone_iff_eq_none] at hp
    by_cases hs : s = ""
    · subst hs
      simp [fetchBookData, fetchBookDataRun]
    · simp [fetchBookData, fetchBookDataRun, if_neg hs, hp]
  · intro s r hr
    by_cases hs : s = ""
    · subst hs
      simp [fetchBookData, fetchBookDataRun] at hr
    · simp only [fetchBookData, fetchBookDataRun, if_neg hs] at hr
      cases hp : jsonParse (cleanReply s) with
      | none =>
        rw [hp] at hr
        simp at hr
      | some j =>
        rw [hp] at hr
        simp only [Option.some.injEq] at hr
        exact ⟨j, rfl, hr.symm⟩

/-- C7 witness: a non-JSON reply yields no record, and a well-formed reply
yields exactly the parsed record. -/
theorem C7_invalid_reply_yields_no_record_witness :
    fetchBookData (some "notjson") (fun _ => CoverResp.resp 200 none) = none
    ∧ ∃ j, jsonParse (cleanReply "\x7b\"title\":\"X\"\x7d") = some j
        ∧ ({ title := some "X" } : BookData)
          = { toBookData j with
              coverUri := (fetchCoverWithRetry (fun _ => CoverResp.resp 200 none)
                ((toBookData j).title.getD "") 2).result } :=
  ⟨(C7_invalid_reply_yields_no_record (fun _ => CoverResp.resp 200 none)).2.2.1 "notjson"
      (by decide),
   (C7_invalid_reply_yields_no_record (fun _ => CoverResp.resp 200 none)).2.2.2
      "\x7b\"title\":\"X\"\x7d" ({ title := some "X" } : BookData) (by decide)⟩

/-- C8 counterexample: a thumbnail that is already an https URL but contains
the substring colon-separated http later (in a query parameter) is not
returned unchanged: the first http occurrence is rewritten. -/
theorem C8_https_thumbnail_modified :
    (fetchCoverWithRetry (fun _ => CoverResp.resp 200 (some "https://a?u=http://b")) "t" 2).result
      = some "https://a?u=https://b"
    ∧ (fetchCoverWithRetry (fun _ => CoverResp.resp 200 (some "https://a?u=http://b")) "t" 2).result
      ≠ some "https://a?u=http://b" := by decide

/-- C8 (amended): on the first non-429 response, the returned cover is the
thumbnail with the first occurrence of the substring http-colon replaced by
https-colon; a thumbnail containing no such substring (in particular a typical
https URL) is returned unchanged, and a missing thumbnail yields no cover. -/
theorem C8_thumbnail_first_http_rewrite (covers : Nat → CoverResp) (title : String)
    (status : Nat) (thumb : Option String)
    (hc : covers 0 = .resp status thumb) (hst : status ≠ 429) :
    (∀ u, thumb = some u → u ≠ "" →
        (fetchCoverWithRetry covers title 2).result = some (jsReplaceFirst u "http:" "https:"))
    ∧ (∀ u, thumb = some u → u ≠ "" → containsSub u "http:" = false →
        (fetchCoverWithRetry covers title 2).result = some u)
    ∧ (thumb = none → (fetchCoverWithRetry covers title 2).result = none) := by
  have hrun : (fetchCoverWithRetry covers title 2).result = thumbResult thumb := by
    unfold fetchCoverWithRetry
    simp [coverRun, hc, hst]
  refine ⟨?_, ?_, ?_⟩
  · intro u hu hne
    subst hu
    rw [hrun]
    simp [thumbResult, hne]
  · intro u hu hne hsub
    subst hu
    rw [hrun]
    simp [thumbResult, hne]
    exact jsReplaceFirst_id u _ _ hsub
  · intro hu
    subst hu
    rw [hrun]
    rfl

/-- C8 witness: a plain https thumbnail is returned unchanged. -/
theorem C8_thumbnail_first_http_rewrite_witness :
    (fetchCoverWithRetry (fun _ => CoverResp.resp 200 (some "https://cover.example/img.png"))
        "t" 2).result = some "https://cover.example/img.png" :=
  (C8_thumbnail_first_http_rewrite (fun _ => CoverResp.resp 200 (some "https://cover.example/img.png"))
      "t" 200 (some "https://cover.example/img.png") rfl (by decide)).2.1
    "https://cover.example/img.png" rfl (by decide) (by decide)

/-- C9: when the source image cannot be decoded, the encode promise never
settles (no `img.onerror` handler is attached in the source), so the scan
reaches no terminal state at all: no error is recorded, no record is produced
and the loading flag is never reset, contradicting the claimed `DecodeError`
termination. -/
theorem C9_undecodable_image_never_completes (ocr : Except String OcrReplyData)
    (hb : String) (reply : Option String) (covers : Nat → CoverResp) :
    handleScanCover .decodeFailure ocr hb reply covers = none := rfl

/-- C10: the cloud function keeps only the first three lines whose trimmed
length exceeds one: once three qualifying lines are present, appending any
further lines leaves the returned text unchanged; the returned text is the
space-join of those lines, trimmed, and a missing annotation yields the empty
string. -/
theorem C10_ocr_truncates_to_three_lines :
    (∀ ls extra : List (List Char), 3 ≤ (ls.filter qualLine).length →
        performOcrLines (ls ++ extra) = performOcrLines ls)
    ∧ (∀ t : String, t ≠ "" → performOcr (some t) = ⟨performOcrLines (splitNl t.data)⟩)
    ∧ performOcr none = "" := by
  refine ⟨?_, ?_, rfl⟩
  · intro ls extra h3
    unfold performOcrLines
    rw [List.filter_append, List.take_append_of_le_length h3]
  · intro t ht
    simp [performOcr, ht]

/-- C10 witness: appending a fourth qualifying line changes nothing, and a
non-empty annotation goes through the line pipeline. -/
theorem C10_ocr_truncates_to_three_lines_witness :
    performOcrLines (["aa".data, "bb".data, "cc".data] ++ ["dd".data])
      = performOcrLines ["aa".data, "bb".data, "cc".data]
    ∧ performOcr (some "שיר") = ⟨performOcrLines (splitNl "שיר".data)⟩ :=
  ⟨C10_ocr_truncates_to_three_lines.1 ["aa".data, "bb".data, "cc".data] ["dd".data] (by decide),
   C10_ocr_truncates_to_three_lines.2.1 "שיר" (by decide)⟩

end HebrewLibrarian
